import Mathlib

/-!
Shallow embedding of the crypto GARCH analysis pipeline
(`src/BTC/crypto_garch_analysis.py`) and proofs about its
Loader, Fitter, Selector, Diagnostics and driver components.

Numeric conventions: price levels, model-fit metrics and standardized
residuals are rationals (`ℚ`), so that every operation the pipeline
itself performs (column selection, row dropping, ratio, squaring,
ordering) is computable and decidable; a missing (NaN) cell is
`none : Option ℚ`.  The external numeric library calls — `np.log`, the
`arch_model(...).fit()` estimator and `acorr_ljungbox` — are modelled as
explicit function parameters (oracles) of the components that invoke
them; `np.log` is instantiated with the real natural logarithm
`Real.log` in the theorems.  Values assume positive price levels, the
domain on which `np.log` of a price ratio is an ordinary real logarithm
(NaN arises exactly from a missing operand).
-/

namespace CryptoGarch

/-- A fetched price table (the `pandas.DataFrame` returned by
`yf.download`): a row count and named columns of possibly-missing cells.
`df.empty` in pandas is true when either axis has length zero. -/
structure Fetched where
  nrows : Nat
  cols : List (String × List (Option ℚ))

/-- `df.empty`: true when the table has no rows or no columns. -/
def Fetched.isEmpty (df : Fetched) : Bool :=
  df.nrows == 0 || df.cols.isEmpty

/-- Column extraction `df[name]`: first column with the given label. -/
def Fetched.getCol (df : Fetched) (name : String) : Option (List (Option ℚ)) :=
  df.cols.lookup name

/-- `df.columns.tolist()`. -/
def Fetched.colNames (df : Fetched) : List String :=
  df.cols.map Prod.fst

/-- The Loader's errors.  `dataUnavailable` embeds the
`RuntimeError(f"Downloaded dataframe for {ticker} is empty. Check ticker
or date range.")` of `download_prices`: the message interpolates only the
ticker, so only the ticker is carried.  `schemaError` embeds the
`KeyError(f"Neither 'Adj Close' nor 'Close' found in columns:
{df.columns.tolist()}")`, which carries the column list. -/
inductive LoadError where
  | dataUnavailable (ticker : String)
  | schemaError (cols : List String)
deriving DecidableEq

/-- One cell of `np.log(df["Price"] / df["Price"].shift(1))`, with the
external `np.log` passed as `lg`: defined only when the current and
previous prices are both present (on positive prices, the numpy
expression is NaN exactly when an operand is missing). -/
def logRet (lg : ℚ → ℝ) (prev cur : Option ℚ) : Option ℝ :=
  match prev, cur with
  | some p, some c => some (lg (c / p))
  | _, _ => none

/-- The `LogReturn` cells at rows `1, 2, ...`: one `logRet` per pair of
consecutive price cells (row 0's cell, which `shift(1)` makes NaN, is
always dropped by the cleaning step and is omitted here). -/
def consecReturns (lg : ℚ → ℝ) : List (Option ℚ) → List (Option ℝ)
  | [] => []
  | [_] => []
  | a :: b :: rest => logRet lg a b :: consecReturns lg (b :: rest)

/-- The cleaned `LogReturn` column after `df.dropna(inplace=True)`:
rows whose price or log-return cell is NaN are removed (a present
log-return forces a present price, so dropping `none` log-returns is
exactly the row filter of `dropna`). -/
def returnSeries (lg : ℚ → ℝ) (prices : List (Option ℚ)) : List ℝ :=
  (consecReturns lg prices).reduceOption

/-- The column `download_prices` selects: `'Adj Close'` when that label
is present, else `'Close'`; `none` when the chosen label is absent
(the source's `if price_col not in df.columns` check). -/
def selectedCol (df : Fetched) : Option (List (Option ℚ)) :=
  df.getCol (if (df.getCol "Adj Close").isSome then "Adj Close" else "Close")

/-- `download_prices(ticker, start, end)` acting on the fetched table:
fail on an empty table, select the price column, fail when neither
candidate column exists, and otherwise return the cleaned log-return
series.  `start` and `endd` are accepted (they parameterize the network
call) but, as in the source, appear in no error payload. -/
def download_prices (lg : ℚ → ℝ) (ticker start endd : String) (df : Fetched) :
    Except LoadError (List ℝ) :=
  if df.isEmpty then
    .error (.dataUnavailable ticker)
  else
    match selectedCol df with
    | none => .error (.schemaError df.colNames)
    | some prices => .ok (returnSeries lg prices)

/-- The result of one `arch_model(...).fit(disp="off")` call, as the
pipeline consumes it: the stored log-likelihood, AIC and BIC (read back
verbatim by the Selector) and the standardized-residual sequence
`res.std_resid` (consumed by the diagnostics step). -/
structure FittedModel where
  loglikelihood : ℚ
  aic : ℚ
  bic : ℚ
  std_resid : List ℚ
deriving DecidableEq

/-- The arguments of one `arch_model(logret, vol=..., p=..., o=..., q=...,
dist=...)` call (`o` defaults to 0 when not passed). -/
structure ArchSpec where
  vol : String
  p : Nat
  o : Nat
  q : Nat
  dist : String
deriving DecidableEq

/-- `arch_model(logret, vol="GARCH", p=1, q=1, dist=dist)`. -/
def garchSpec (dist : String) : ArchSpec := ⟨"GARCH", 1, 0, 1, dist⟩

/-- `arch_model(logret, vol="EGARCH", p=1, q=1, dist=dist)`. -/
def egarchSpec (dist : String) : ArchSpec := ⟨"EGARCH", 1, 0, 1, dist⟩

/-- `arch_model(logret, vol="GARCH", p=1, o=1, q=1, dist=dist)`: the
threshold (GJR) variant, one asymmetry term via `o=1`. -/
def gjrSpec (dist : String) : ArchSpec := ⟨"GARCH", 1, 1, 1, dist⟩

/-- `fit_models(logret, dist)`, with the external maximum-likelihood
estimator passed as `fit` (a raised Python exception is an `.error` with
the exception's message).  The source fits the three specifications
sequentially with no surrounding `try`, so an estimator error propagates
immediately, exactly as the `Except` bind does here. -/
def fit_models (fit : List ℝ → ArchSpec → Except String FittedModel)
    (logret : List ℝ) (dist : String) :
    Except String (List (String × FittedModel)) := do
  let resGarch ← fit logret (garchSpec dist)
  let resEgarch ← fit logret (egarchSpec dist)
  let resGjr ← fit logret (gjrSpec dist)
  return [("GARCH(1,1)", resGarch), ("EGARCH(1,1)", resEgarch),
          ("GJR-GARCH(1,1)", resGjr)]

/-- One row of the comparison table built by `model_comparison_table`. -/
structure ComparisonRow where
  model : String
  loglik : ℚ
  aic : ℚ
  bic : ℚ
deriving DecidableEq

/-- The row appended for a `(name, res)` pair of the results mapping:
`{"Model": name, "LogLik": res.loglikelihood, "AIC": res.aic,
"BIC": res.bic}`. -/
def toRow (p : String × FittedModel) : ComparisonRow :=
  ⟨p.1, p.2.loglikelihood, p.2.aic, p.2.bic⟩

/-- The comparison order of `sort_values(["AIC", "BIC"])`: ascending
lexicographically by AIC then BIC. -/
def rowLe (a b : ComparisonRow) : Bool :=
  decide (a.aic < b.aic) || (decide (a.aic = b.aic) && decide (a.bic ≤ b.bic))

/-- `rowLe` as a proposition, the sort key order of the Selector. -/
def RowLE (a b : ComparisonRow) : Prop := rowLe a b = true

instance : DecidableRel RowLE := fun a b =>
  inferInstanceAs (Decidable (rowLe a b = true))

/-- `model_comparison_table(results)`: project every fitted model to a
`ComparisonRow` in mapping order, then sort ascending by AIC with BIC as
the secondary key (pandas sorts on several keys with a stable
lexicographic sort; `insertionSort` is such a stable sort). -/
def model_comparison_table (results : List (String × FittedModel)) :
    List ComparisonRow :=
  (results.map toRow).insertionSort RowLE

/-- The single row of the `residual_diagnostics` output frame:
`LB(12)_resid_stat`, `LB(12)_resid_p`, `LB(12)_resid2_stat`,
`LB(12)_resid2_p`. -/
structure DiagRow where
  resid_stat : ℚ
  resid_p : ℚ
  resid2_stat : ℚ
  resid2_p : ℚ
deriving DecidableEq

/-- `residual_diagnostics(res)`, with the external
`acorr_ljungbox(x, lags=[lag])` test passed as `lb`, returning the
`(lb_stat, lb_pvalue)` pair: one Ljung-Box test at lag 12 on the
standardized residuals, and one at lag 12 on their squares. -/
def residual_diagnostics (lb : List ℚ → Nat → ℚ × ℚ) (res : FittedModel) :
    DiagRow :=
  let l1 := lb res.std_resid 12
  let l2 := lb (res.std_resid.map (fun x => x ^ 2)) 12
  ⟨l1.1, l1.2, l2.1, l2.2⟩

/-- The winner election inside `run_for_ticker`:
`best_name = cmp_table.iloc[0]["Model"]; best_res = results[best_name]`.
`none` is the `IndexError`/`KeyError` case, unreachable for the
pipeline's three-entry mapping. -/
def best_model (results : List (String × FittedModel)) : Option FittedModel :=
  match (model_comparison_table results).head? with
  | none => none
  | some r0 => results.lookup r0.model

/-- The diagnostics step of `run_for_ticker`:
`diag = residual_diagnostics(best_res)` — diagnostics are run on the
elected winner alone. -/
def run_diagnostics (lb : List ℚ → Nat → ℚ × ℚ)
    (results : List (String × FittedModel)) : Option DiagRow :=
  (best_model results).map (residual_diagnostics lb)

/-- The body of `main`'s loop for one ticker, with the whole per-ticker
pipeline `run_for_ticker` passed as `runT`: `try: run_for_ticker(t)
except Exception as e: print(f"[Error] {t}: {e}")`.  The produced log
line is `some ...` exactly on failure. -/
def run_ticker_logged (runT : String → Except String Unit) (t : String) :
    Option String :=
  match runT t with
  | .ok _ => none
  | .error e => some ("[Error] " ++ t ++ ": " ++ e)

/-- `main()`: iterate the guarded per-ticker body over the ticker list. -/
def main_loop (runT : String → Except String Unit) (tickers : List String) :
    List (Option String) :=
  tickers.map (run_ticker_logged runT)

/-! ### Loader lemmas -/

lemma logRet_none_right (lg : ℚ → ℝ) (a : Option ℚ) :
    logRet lg a none = none := by
  cases a <;> rfl

lemma consecReturns_map_some (lg : ℚ → ℝ) :
    ∀ ps : List ℚ, consecReturns lg (ps.map some) =
      List.zipWith (fun p c => some (lg (c / p))) ps ps.tail
  | [] => rfl
  | [_] => rfl
  | a :: b :: rest => by
    simpa [consecReturns, logRet] using consecReturns_map_some lg (b :: rest)

lemma reduceOption_map_some {α : Type} (l : List α) :
    (l.map some).reduceOption = l := by
  induction l with
  | nil => rfl
  | cons a tl ih => simp [ih]

lemma returnSeries_map_some (lg : ℚ → ℝ) (ps : List ℚ) :
    returnSeries lg (ps.map some) =
      List.zipWith (fun p c => lg (c / p)) ps ps.tail := by
  have h : List.zipWith (fun p c => some (lg (c / p))) ps ps.tail =
      (List.zipWith (fun p c => lg (c / p)) ps ps.tail).map some := by
    induction ps with
    | nil => rfl
    | cons a tl ih =>
      cases tl with
      | nil => rfl
      | cons b rest => simpa using ih
  rw [returnSeries, consecReturns_map_some, h, reduceOption_map_some]

lemma consecReturns_length (lg : ℚ → ℝ) :
    ∀ l : List (Option ℚ), (consecReturns lg l).length = l.length - 1
  | [] => rfl
  | [_] => rfl
  | a :: b :: rest => by
    simpa [consecReturns] using consecReturns_length lg (b :: rest)

lemma returnSeries_map_some_length (lg : ℚ → ℝ) (ps : List ℚ) :
    (returnSeries lg (ps.map some)).length = ps.length - 1 := by
  rw [returnSeries_map_some, List.length_zipWith, List.length_tail]
  omega

lemma none_mem_consecReturns (lg : ℚ → ℝ) :
    ∀ pre post : List (Option ℚ), pre ≠ [] →
      none ∈ consecReturns lg (pre ++ none :: post)
  | [], _, h => absurd rfl h
  | [a], post, _ => by
    simp [consecReturns, logRet_none_right]
  | a :: b :: pre, post, _ => by
    have ih := none_mem_consecReturns lg (b :: pre) post (by simp)
    simpa [consecReturns] using Or.inr ih

lemma lookup_isSome_iff {β : Type} (n : String) :
    ∀ l : List (String × β), (l.lookup n).isSome = true ↔ n ∈ l.map Prod.fst
  | [] => by simp [List.lookup]
  | (k, v) :: tl => by
    by_cases h : n = k
    · subst h; simp [List.lookup]
    · have hb : (n == k) = false := by simpa using h
      simp [List.lookup, hb, h, lookup_isSome_iff n tl]

lemma getCol_isSome_iff (df : Fetched) (n : String) :
    (df.getCol n).isSome = true ↔ n ∈ df.colNames :=
  lookup_isSome_iff n df.cols

lemma selectedCol_none_iff (df : Fetched) :
    selectedCol df = none ↔
      ("Adj Close" ∉ df.colNames ∧ "Close" ∉ df.colNames) := by
  unfold selectedCol
  by_cases h : (df.getCol "Adj Close").isSome = true
  · rcases Option.isSome_iff_exists.mp h with ⟨v, hv⟩
    have hmem : "Adj Close" ∈ df.colNames := (getCol_isSome_iff df _).mp h
    simp [h, hv, hmem]
  · have hnone : df.getCol "Adj Close" = none :=
      Option.not_isSome_iff_eq_none.mp (by simpa using h)
    have hmem : "Adj Close" ∉ df.colNames := fun hm =>
      h ((getCol_isSome_iff df _).mpr hm)
    rw [if_neg (by simpa using h)]
    constructor
    · intro hc
      refine ⟨hmem, fun hm => ?_⟩
      have := (getCol_isSome_iff df "Close").mpr hm
      rw [hc] at this
      exact Bool.noConfusion this
    · intro ⟨_, hc⟩
      exact Option.not_isSome_iff_eq_none.mp
        (fun hs => hc ((getCol_isSome_iff df "Close").mp hs))

lemma selectedCol_of_adj (df : Fetched) (prices : List (Option ℚ))
    (h : df.getCol "Adj Close" = some prices) :
    selectedCol df = some prices := by
  unfold selectedCol
  rw [if_pos (by simp [h]), h]

lemma selectedCol_of_close (df : Fetched) (prices : List (Option ℚ))
    (hadj : df.getCol "Adj Close" = none) (h : df.getCol "Close" = some prices) :
    selectedCol df = some prices := by
  unfold selectedCol
  rw [if_neg (by simp [hadj]), h]

/-- C3 (amended): the Loader fails with `DataUnavailable` naming the
ticker exactly when the fetched table is empty, fails with `SchemaError`
listing the columns exactly when the table is non-empty and neither
`'Adj Close'` nor `'Close'` is present, and otherwise returns the
cleaned series of the adjusted-close column when present, else of the
raw-close column. -/
theorem download_prices_error_policy (lg : ℚ → ℝ) (t s e : String) (df : Fetched) :
    (download_prices lg t s e df = .error (.dataUnavailable t) ↔
      df.isEmpty = true)
  ∧ (download_prices lg t s e df = .error (.schemaError df.colNames) ↔
      (df.isEmpty = false ∧ "Adj Close" ∉ df.colNames ∧ "Close" ∉ df.colNames))
  ∧ (∀ prices, df.isEmpty = false → df.getCol "Adj Close" = some prices →
      download_prices lg t s e df = .ok (returnSeries lg prices))
  ∧ (∀ prices, df.isEmpty = false → df.getCol "Adj Close" = none →
      df.getCol "Close" = some prices →
      download_prices lg t s e df = .ok (returnSeries lg prices)) := by
  unfold download_prices
  cases hB : df.isEmpty with
  | true =>
    rw [if_pos rfl]
    refine ⟨⟨fun _ => rfl, fun _ => rfl⟩, ?_, ?_, ?_⟩
    · constructor
      · intro h; simp at h
      · intro ⟨h, _⟩; exact Bool.noConfusion h
    · intro _ h _; exact Bool.noConfusion h
    · intro _ h _ _; exact Bool.noConfusion h
  | false =>
    rw [if_neg (by simp)]
    rcases hsel : selectedCol df with _ | prices0
    · refine ⟨?_, ?_, ?_, ?_⟩
      · constructor
        · intro h; simp at h
        · intro h; exact Bool.noConfusion h
      · constructor
        · intro _; exact ⟨rfl, (selectedCol_none_iff df).mp hsel⟩
        · intro _; rfl
      · intro prices _ hadj
        rw [selectedCol_of_adj df prices hadj] at hsel
        exact Option.noConfusion hsel
      · intro prices _ hadj hclose
        rw [selectedCol_of_close df prices hadj hclose] at hsel
        exact Option.noConfusion hsel
    · refine ⟨?_, ?_, ?_, ?_⟩
      · constructor
        · intro h; simp at h
        · intro h; exact Bool.noConfusion h
      · constructor
        · intro h; simp at h
        · intro ⟨_, hcols⟩
          rw [(selectedCol_none_iff df).mpr hcols] at hsel
          exact Option.noConfusion hsel
      · intro prices _ hadj
        rw [selectedCol_of_adj df prices hadj] at hsel
        cases Option.some.inj hsel
        rfl
      · intro prices _ hadj hclose
        rw [selectedCol_of_close df prices hadj hclose] at hsel
        cases Option.some.inj hsel
        rfl

/-- C3 witness: the error policy evaluated on four concrete tables —
empty, adjusted-close only, raw-close only, and neither column. -/
theorem download_prices_error_policy_witness :
    (download_prices (fun q : ℚ => Real.log q) "BTC-USD" "2018-01-01" "2024-12-31" ⟨0, []⟩
      = .error (.dataUnavailable "BTC-USD"))
  ∧ (download_prices (fun q : ℚ => Real.log q) "BTC-USD" "2018-01-01" "2024-12-31"
        ⟨1, [("Open", [some 1])]⟩
      = .error (.schemaError ["Open"]))
  ∧ (download_prices (fun q : ℚ => Real.log q) "BTC-USD" "2018-01-01" "2024-12-31"
        ⟨2, [("Adj Close", [some 1, some 2])]⟩
      = .ok (returnSeries (fun q : ℚ => Real.log q) [some 1, some 2]))
  ∧ (download_prices (fun q : ℚ => Real.log q) "BTC-USD" "2018-01-01" "2024-12-31"
        ⟨2, [("Close", [some 1, some 2])]⟩
      = .ok (returnSeries (fun q : ℚ => Real.log q) [some 1, some 2])) :=
  ⟨(download_prices_error_policy (fun q : ℚ => Real.log q) "BTC-USD" "2018-01-01" "2024-12-31"
      ⟨0, []⟩).1.mpr rfl,
   (download_prices_error_policy (fun q : ℚ => Real.log q) "BTC-USD" "2018-01-01" "2024-12-31"
      ⟨1, [("Open", [some 1])]⟩).2.1.mpr ⟨rfl, by decide, by decide⟩,
   (download_prices_error_policy (fun q : ℚ => Real.log q) "BTC-USD" "2018-01-01" "2024-12-31"
      ⟨2, [("Adj Close", [some 1, some 2])]⟩).2.2.1 [some 1, some 2] rfl rfl,
   (download_prices_error_policy (fun q : ℚ => Real.log q) "BTC-USD" "2018-01-01" "2024-12-31"
      ⟨2, [("Close", [some 1, some 2])]⟩).2.2.2 [some 1, some 2] rfl rfl rfl⟩

/-- C3 counterexample: the `DataUnavailable` error does not identify the
requested date range — two calls over the same empty table with
different ranges produce the very same error, which carries only the
ticker (the source's `RuntimeError` message interpolates only
`{ticker}`). -/
theorem dataUnavailable_ignores_range :
    download_prices (fun q : ℚ => Real.log q) "BTC-USD" "2018-01-01" "2024-12-31" ⟨0, []⟩
      = download_prices (fun q : ℚ => Real.log q) "BTC-USD" "1900-01-01" "1900-01-02" ⟨0, []⟩
  ∧ download_prices (fun q : ℚ => Real.log q) "BTC-USD" "2018-01-01" "2024-12-31" ⟨0, []⟩
      = .error (.dataUnavailable "BTC-USD") :=
  ⟨rfl, rfl⟩

/-- C4: for a fetched price series of `n` present, positive prices, the
derived return series has exactly `n - 1` observations, the `i`-th being
the natural logarithm of the ratio of the `(i+1)`-th price to the `i`-th
price; the leading undefined observation is dropped. -/
theorem return_series_of_full_prices (t s e : String) (df : Fetched)
    (ps : List ℚ) (hne : df.isEmpty = false)
    (hcol : selectedCol df = some (ps.map some))
    (hpos : ∀ p ∈ ps, 0 < p) :
    download_prices (fun q : ℚ => Real.log q) t s e df
        = .ok (returnSeries (fun q : ℚ => Real.log q) (ps.map some))
  ∧ (returnSeries (fun q : ℚ => Real.log q) (ps.map some)).length
      = ps.length - 1
  ∧ returnSeries (fun q : ℚ => Real.log q) (ps.map some)
      = List.zipWith (fun p c : ℚ => Real.log ((c : ℝ) / (p : ℝ)))
          ps ps.tail := by
  refine ⟨?_, returnSeries_map_some_length _ ps, ?_⟩
  · unfold download_prices
    rw [if_neg (by simp [hne]), hcol]
  · rw [returnSeries_map_some]
    simp only [Rat.cast_div]

/-- C4 witness: the theorem evaluated on a two-price adjusted-close
table. -/
theorem return_series_of_full_prices_witness :
    download_prices (fun q : ℚ => Real.log q) "BTC-USD" "2018-01-01"
        "2024-12-31" ⟨2, [("Adj Close", [some 1, some 2])]⟩
      = .ok (returnSeries (fun q : ℚ => Real.log q) (([1, 2] : List ℚ).map some))
  ∧ (returnSeries (fun q : ℚ => Real.log q) (([1, 2] : List ℚ).map some)).length
      = ([1, 2] : List ℚ).length - 1
  ∧ returnSeries (fun q : ℚ => Real.log q) (([1, 2] : List ℚ).map some)
      = List.zipWith (fun p c : ℚ => Real.log ((c : ℝ) / (p : ℝ)))
          [1, 2] ([1, 2] : List ℚ).tail :=
  return_series_of_full_prices "BTC-USD" "2018-01-01" "2024-12-31"
    ⟨2, [("Adj Close", [some 1, some 2])]⟩ [1, 2] rfl rfl (by decide)

/-- C8 counterexample: a non-empty one-row price table cleans to an
empty return series, and the Loader returns it successfully instead of
failing — the claimed non-emptiness invariant does not hold. -/
theorem loader_returns_empty_series :
    download_prices (fun q : ℚ => Real.log q) "BTC-USD" "2018-01-01"
      "2024-12-31" ⟨1, [("Close", [some 1])]⟩ = .ok ([] : List ℝ) := rfl

lemma some_mem_consecReturns (lg : ℚ → ℝ) :
    ∀ (l1 : List (Option ℚ)) (a b : ℚ) (l2 : List (Option ℚ)),
      some (lg (b / a)) ∈ consecReturns lg (l1 ++ some a :: some b :: l2)
  | [], a, b, l2 => by simp [consecReturns, logRet]
  | x :: l1, a, b, l2 => by
    have ih := some_mem_consecReturns lg l1 a b l2
    cases hl : l1 ++ some a :: some b :: l2 with
    | nil => exact absurd hl (by simp)
    | cons y rest =>
      rw [List.cons_append, hl]
      rw [hl] at ih
      simpa [consecReturns] using Or.inr ih

/-- C8 (amended): a ReturnSeries returned by the Loader is free of
missing observations, and is non-empty whenever the selected price
column holds two adjacent present prices (a log-return exists only for
a pair of consecutive present cells); when cleaning leaves no
observations the Loader returns the empty series rather than failing. -/
theorem loader_series_nonempty_of_two_prices (t s e : String) (df : Fetched)
    (l1 l2 : List (Option ℚ)) (a b : ℚ) (hne : df.isEmpty = false)
    (hcol : selectedCol df = some (l1 ++ some a :: some b :: l2)) :
    ∃ rs : List ℝ,
      download_prices (fun q : ℚ => Real.log q) t s e df = .ok rs
      ∧ rs ≠ [] := by
  refine ⟨returnSeries (fun q : ℚ => Real.log q) (l1 ++ some a :: some b :: l2),
    ?_, ?_⟩
  · unfold download_prices
    rw [if_neg (by simp [hne]), hcol]
  · have hmem := some_mem_consecReturns (fun q : ℚ => Real.log q) l1 a b l2
    exact List.ne_nil_of_mem (List.reduceOption_mem_iff.mpr hmem)

/-- C8 amended-claim witness: a close-only column that even contains a
missing cell, but ends in two adjacent present prices, yields a
non-empty series. -/
theorem loader_series_nonempty_of_two_prices_witness :
    ∃ rs : List ℝ,
      download_prices (fun q : ℚ => Real.log q) "ETH-USD" "2018-01-01"
          "2024-12-31" ⟨4, [("Close", [some 1, none, some 2, some 3])]⟩
        = .ok rs
      ∧ rs ≠ [] :=
  loader_series_nonempty_of_two_prices "ETH-USD" "2018-01-01" "2024-12-31"
    ⟨4, [("Close", [some 1, none, some 2, some 3])]⟩ [some 1, none] [] 2 3
    rfl rfl

/-- C10: a missing price at an interior position makes the Loader drop
every resulting undefined log-return row, not only the leading one: the
download still succeeds and the returned series has strictly fewer than
`n - 1` observations. -/
theorem loader_drops_interior_nans (t s e : String) (df : Fetched)
    (pre post : List (Option ℚ)) (hpre : pre ≠ []) (hpost : post ≠ [])
    (hne : df.isEmpty = false)
    (hcol : selectedCol df = some (pre ++ none :: post)) :
    download_prices (fun q : ℚ => Real.log q) t s e df
      = .ok (returnSeries (fun q : ℚ => Real.log q) (pre ++ none :: post))
  ∧ (returnSeries (fun q : ℚ => Real.log q) (pre ++ none :: post)).length
      < (pre ++ none :: post).length - 1 := by
  constructor
  · unfold download_prices
    rw [if_neg (by simp [hne]), hcol]
  · have hmem := none_mem_consecReturns (fun q : ℚ => Real.log q) pre post hpre
    have hlt := List.reduceOption_length_lt_iff.mpr hmem
    rw [consecReturns_length (fun q : ℚ => Real.log q)
      (pre ++ none :: post)] at hlt
    exact hlt

/-- C10 witness: a three-row close column whose middle price is missing
cleans to fewer than two observations, with no error raised. -/
theorem loader_drops_interior_nans_witness :
    download_prices (fun q : ℚ => Real.log q) "BTC-USD" "2018-01-01"
        "2024-12-31" ⟨3, [("Close", [some 1, none, some 1])]⟩
      = .ok (returnSeries (fun q : ℚ => Real.log q)
          ([some 1] ++ none :: [some 1]))
  ∧ (returnSeries (fun q : ℚ => Real.log q)
        ([some 1] ++ none :: [some 1])).length
      < (([some 1] ++ none :: [some 1]) : List (Option ℚ)).length - 1 :=
  loader_drops_interior_nans "BTC-USD" "2018-01-01" "2024-12-31"
    ⟨3, [("Close", [some 1, none, some 1])]⟩ [some 1] [some 1]
    (by simp) (by simp) rfl rfl

/-! ### Selector lemmas -/

lemma rowLe_true_iff (a b : ComparisonRow) :
    rowLe a b = true ↔
      (a.aic < b.aic ∨ (a.aic = b.aic ∧ a.bic ≤ b.bic)) := by
  simp [rowLe]

lemma rowLe_trans (a b c : ComparisonRow)
    (h1 : rowLe a b = true) (h2 : rowLe b c = true) : rowLe a c = true := by
  rw [rowLe_true_iff] at h1 h2 ⊢
  rcases h1 with h1 | ⟨h1e, h1b⟩
  · rcases h2 with h2 | ⟨h2e, _⟩
    · exact Or.inl (h1.trans h2)
    · exact Or.inl (h2e ▸ h1)
  · rcases h2 with h2 | ⟨h2e, h2b⟩
    · exact Or.inl (h1e ▸ h2)
    · exact Or.inr ⟨h1e.trans h2e, h1b.trans h2b⟩

lemma rowLe_total (a b : ComparisonRow) :
    (rowLe a b || rowLe b a) = true := by
  simp only [Bool.or_eq_true, rowLe_true_iff]
  rcases lt_trichotomy a.aic b.aic with h | h | h
  · exact Or.inl (Or.inl h)
  · rcases le_total a.bic b.bic with hb | hb
    · exact Or.inl (Or.inr ⟨h, hb⟩)
    · exact Or.inr (Or.inr ⟨h.symm, hb⟩)
  · exact Or.inr (Or.inl h)

instance : IsTrans ComparisonRow RowLE :=
  ⟨fun a b c h1 h2 => rowLe_trans a b c h1 h2⟩

instance : IsTotal ComparisonRow RowLE :=
  ⟨fun a b => by
    have h := rowLe_total a b
    rcases Bool.or_eq_true_iff.mp h with h | h
    · exact Or.inl h
    · exact Or.inr h⟩

lemma comparison_table_pairwise (results : List (String × FittedModel)) :
    (model_comparison_table results).Pairwise RowLE :=
  List.sorted_insertionSort RowLE (results.map toRow)

lemma comparison_table_perm (results : List (String × FittedModel)) :
    (model_comparison_table results).Perm (results.map toRow) :=
  List.perm_insertionSort RowLE (results.map toRow)

lemma comparison_head_min (results : List (String × FittedModel))
    (r0 : ComparisonRow)
    (h0 : (model_comparison_table results).head? = some r0) :
    ∀ row ∈ model_comparison_table results,
      r0.aic ≤ row.aic ∧ (r0.aic = row.aic → r0.bic ≤ row.bic) := by
  intro row hrow
  cases htab : model_comparison_table results with
  | nil => rw [htab] at h0; exact Option.noConfusion h0
  | cons a rest =>
    rw [htab] at h0 hrow
    have ha : a = r0 := Option.some.inj h0
    subst ha
    have hp := comparison_table_pairwise results
    rw [htab] at hp
    rcases List.mem_cons.mp hrow with heq | hmem
    · subst heq
      exact ⟨le_refl _, fun _ => le_refl _⟩
    · have hle := (List.pairwise_cons.mp hp).1 row hmem
      rcases (rowLe_true_iff a row).mp hle with h | ⟨he, hb⟩
      · exact ⟨le_of_lt h, fun he => absurd he (ne_of_lt h)⟩
      · exact ⟨le_of_eq he, fun _ => hb⟩

lemma head_mem_comparison_table (results : List (String × FittedModel))
    (r0 : ComparisonRow)
    (h0 : (model_comparison_table results).head? = some r0) :
    r0 ∈ model_comparison_table results := by
  cases htab : model_comparison_table results with
  | nil => rw [htab] at h0; exact Option.noConfusion h0
  | cons a rest =>
    rw [htab] at h0
    exact (Option.some.inj h0) ▸ List.mem_cons_self a rest

/-- C1: for every results mapping, the comparison table is sorted
ascending by AIC with BIC as the secondary key, and the elected best row
(the first row after the sort) attains the minimum AIC over the whole
table, with ties broken by minimum BIC. -/
theorem comparison_table_sorted_best (results : List (String × FittedModel))
    (r0 : ComparisonRow)
    (h0 : (model_comparison_table results).head? = some r0) :
    (model_comparison_table results).Pairwise RowLE
  ∧ ∀ row ∈ model_comparison_table results,
      r0.aic ≤ row.aic ∧ (r0.aic = row.aic → r0.bic ≤ row.bic) :=
  ⟨comparison_table_pairwise results, comparison_head_min results r0 h0⟩

/-- A three-model results mapping with a tie on AIC broken by BIC, used
to evaluate the Selector theorems on concrete data. -/
def demoResults : List (String × FittedModel) :=
  [("GARCH(1,1)", ⟨-10, 30, 31, []⟩),
   ("EGARCH(1,1)", ⟨-9, 20, 21, []⟩),
   ("GJR-GARCH(1,1)", ⟨-8, 20, 19, []⟩)]

/-- C1 witness: on `demoResults` the first row after sorting is the
GJR row (AIC tie with EGARCH broken by its smaller BIC). -/
theorem comparison_table_sorted_best_witness :
    (model_comparison_table demoResults).Pairwise RowLE
  ∧ ∀ row ∈ model_comparison_table demoResults,
      (⟨"GJR-GARCH(1,1)", -8, 20, 19⟩ : ComparisonRow).aic ≤ row.aic
      ∧ ((⟨"GJR-GARCH(1,1)", -8, 20, 19⟩ : ComparisonRow).aic = row.aic →
          (⟨"GJR-GARCH(1,1)", -8, 20, 19⟩ : ComparisonRow).bic ≤ row.bic) :=
  comparison_table_sorted_best demoResults ⟨"GJR-GARCH(1,1)", -8, 20, 19⟩
    (by decide)

/-- C9: the Selector recomputes nothing — the comparison table is a
permutation of the row-projections of the fitted models, each row
copying the stored log-likelihood, AIC and BIC verbatim, and every table
row arises from some input model. -/
theorem comparison_table_pure_projection
    (results : List (String × FittedModel)) :
    (model_comparison_table results).Perm (results.map toRow)
  ∧ (∀ p ∈ results, toRow p ∈ model_comparison_table results)
  ∧ (∀ row ∈ model_comparison_table results, ∃ p ∈ results, toRow p = row) := by
  have hperm := comparison_table_perm results
  refine ⟨hperm, ?_, ?_⟩
  · intro p hp
    exact hperm.mem_iff.mpr (List.mem_map_of_mem toRow hp)
  · intro row hrow
    rcases List.mem_map.mp (hperm.mem_iff.mp hrow) with ⟨p, hp, hpe⟩
    exact ⟨p, hp, hpe⟩

/-! ### Fitter claims -/

/-- C5: when the estimator succeeds on all three specifications, the
Fitter returns a mapping with exactly three entries — symmetric
GARCH(1,1), exponential GARCH(1,1), and threshold GARCH(1,1) with one
asymmetry term (`o = 1`) — all three specifications carrying the one
requested innovation distribution, and exactly one fitted model per
specification. -/
theorem fit_models_three_specs
    (fit : List ℝ → ArchSpec → Except String FittedModel)
    (logret : List ℝ) (dist : String) (m1 m2 m3 : FittedModel)
    (h1 : fit logret (garchSpec dist) = .ok m1)
    (h2 : fit logret (egarchSpec dist) = .ok m2)
    (h3 : fit logret (gjrSpec dist) = .ok m3) :
    fit_models fit logret dist
      = .ok [("GARCH(1,1)", m1), ("EGARCH(1,1)", m2), ("GJR-GARCH(1,1)", m3)]
  ∧ (garchSpec dist).dist = dist ∧ (egarchSpec dist).dist = dist
  ∧ (gjrSpec dist).dist = dist
  ∧ (garchSpec dist).vol = "GARCH" ∧ (garchSpec dist).o = 0
  ∧ (egarchSpec dist).vol = "EGARCH" ∧ (egarchSpec dist).o = 0
  ∧ (gjrSpec dist).vol = "GARCH" ∧ (gjrSpec dist).o = 1
  ∧ (garchSpec dist).p = 1 ∧ (garchSpec dist).q = 1
  ∧ (egarchSpec dist).p = 1 ∧ (egarchSpec dist).q = 1
  ∧ (gjrSpec dist).p = 1 ∧ (gjrSpec dist).q = 1
  ∧ (["GARCH(1,1)", "EGARCH(1,1)", "GJR-GARCH(1,1)"] : List String).Nodup := by
  refine ⟨?_, rfl, rfl, rfl, rfl, rfl, rfl, rfl, rfl, rfl, rfl, rfl, rfl,
    rfl, rfl, rfl, by decide⟩
  unfold fit_models
  rw [h1, h2, h3]
  rfl

/-- C5 witness: a trivially succeeding estimator produces the
three-entry mapping. -/
theorem fit_models_three_specs_witness :
    fit_models (fun _ _ => .ok (⟨0, 0, 0, []⟩ : FittedModel)) [] "normal"
      = .ok [("GARCH(1,1)", ⟨0, 0, 0, []⟩), ("EGARCH(1,1)", ⟨0, 0, 0, []⟩),
             ("GJR-GARCH(1,1)", ⟨0, 0, 0, []⟩)] :=
  (fit_models_three_specs (fun _ _ => .ok ⟨0, 0, 0, []⟩) [] "normal"
    ⟨0, 0, 0, []⟩ ⟨0, 0, 0, []⟩ ⟨0, 0, 0, []⟩ rfl rfl rfl).1

/-- An estimator oracle that fails on the symmetric GARCH specification
(GARCH family, no asymmetry term) and would fit the other two. -/
def garchOnlyFails : List ℝ → ArchSpec → Except String FittedModel :=
  fun _ s =>
    if s.vol == "EGARCH" || s.o == 1 then .ok ⟨0, 0, 0, []⟩
    else .error "LinAlgError"

/-- C2 counterexample: with `garchOnlyFails` — an estimator that would
fit both the exponential and the threshold specification — the failure
of the first (symmetric GARCH) fit makes `fit_models` return only the
raw estimator error: the other two specifications are never fitted in
that run, and the surfaced error carries neither model name nor
ticker. -/
theorem fit_models_abort_counterexample :
    garchOnlyFails [] (egarchSpec "normal") = .ok ⟨0, 0, 0, []⟩
  ∧ garchOnlyFails [] (gjrSpec "normal") = .ok ⟨0, 0, 0, []⟩
  ∧ fit_models garchOnlyFails [] "normal" = .error "LinAlgError" :=
  ⟨rfl, rfl, rfl⟩

/-- An estimator oracle failing on every specification. -/
def allFitsFail : List ℝ → ArchSpec → Except String FittedModel :=
  fun _ _ => .error "E1"

/-- An estimator oracle failing exactly on the EGARCH specification. -/
def egarchOnlyFails : List ℝ → ArchSpec → Except String FittedModel :=
  fun _ s => if s.vol == "EGARCH" then .error "E2" else .ok ⟨0, 0, 0, []⟩

/-- An estimator oracle failing exactly on the threshold (`o = 1`)
specification. -/
def gjrOnlyFails : List ℝ → ArchSpec → Except String FittedModel :=
  fun _ s => if s.o == 1 then .error "E3" else .ok ⟨0, 0, 0, []⟩

/-- C2 (amended): the three fits share a single failure domain — an
estimator error on any specification makes `fit_models` return exactly
that raw error, skipping every later fit and adding no model-name or
ticker tag. -/
theorem fit_models_single_failure_domain
    (fit : List ℝ → ArchSpec → Except String FittedModel)
    (logret : List ℝ) (dist : String) :
    (∀ e, fit logret (garchSpec dist) = .error e →
        fit_models fit logret dist = .error e)
  ∧ (∀ m1 e, fit logret (garchSpec dist) = .ok m1 →
        fit logret (egarchSpec dist) = .error e →
        fit_models fit logret dist = .error e)
  ∧ (∀ m1 m2 e, fit logret (garchSpec dist) = .ok m1 →
        fit logret (egarchSpec dist) = .ok m2 →
        fit logret (gjrSpec dist) = .error e →
        fit_models fit logret dist = .error e) := by
  refine ⟨?_, ?_, ?_⟩
  · intro e h1
    unfold fit_models
    rw [h1]
    rfl
  · intro m1 e h1 h2
    unfold fit_models
    rw [h1, h2]
    rfl
  · intro m1 m2 e h1 h2 h3
    unfold fit_models
    rw [h1, h2, h3]
    rfl

/-- C2 amended-claim witness: each of the three abort positions
evaluated with a concrete estimator. -/
theorem fit_models_single_failure_domain_witness :
    fit_models allFitsFail [] "normal" = .error "E1"
  ∧ fit_models egarchOnlyFails [] "normal" = .error "E2"
  ∧ fit_models gjrOnlyFails [] "normal" = .error "E3" :=
  ⟨(fit_models_single_failure_domain allFitsFail [] "normal").1 "E1" rfl,
   (fit_models_single_failure_domain egarchOnlyFails [] "normal").2.1
     ⟨0, 0, 0, []⟩ "E2" rfl rfl,
   (fit_models_single_failure_domain gjrOnlyFails [] "normal").2.2
     ⟨0, 0, 0, []⟩ ⟨0, 0, 0, []⟩ "E3" rfl rfl rfl⟩

/-! ### Driver claim -/

/-- C7: an error inside one ticker's pipeline aborts only that ticker —
the driver records `[Error] {ticker}: {message}` at that ticker's
position and the log entries for the tickers before and after it are
produced exactly as if the failing ticker were processed alone. -/
theorem main_loop_isolates_failures (runT : String → Except String Unit)
    (ts1 ts2 : List String) (t e : String)
    (h : runT t = .error e) :
    main_loop runT (ts1 ++ t :: ts2)
      = main_loop runT ts1
        ++ some ("[Error] " ++ t ++ ": " ++ e) :: main_loop runT ts2
  ∧ (main_loop runT (ts1 ++ t :: ts2)).length
      = ts1.length + 1 + ts2.length := by
  constructor
  · simp only [main_loop, List.map_append, List.map_cons, run_ticker_logged, h]
  · simp only [main_loop, List.length_map, List.length_append,
      List.length_cons]
    omega

/-- C7 witness: a run in which the first ticker fails and the second
still produces its own entry. -/
theorem main_loop_isolates_failures_witness :
    main_loop (fun tk => if tk == "BTC-USD" then .error "boom" else .ok ())
        (["BTC-USD", "ETH-USD"])
      = main_loop (fun tk => if tk == "BTC-USD" then .error "boom" else .ok ())
          []
        ++ some ("[Error] " ++ "BTC-USD" ++ ": " ++ "boom")
          :: main_loop
            (fun tk => if tk == "BTC-USD" then .error "boom" else .ok ())
            ["ETH-USD"]
  ∧ (main_loop (fun tk => if tk == "BTC-USD" then .error "boom" else .ok ())
        (["BTC-USD", "ETH-USD"])).length = 2 :=
  main_loop_isolates_failures
    (fun tk => if tk == "BTC-USD" then .error "boom" else .ok ())
    [] ["ETH-USD"] "BTC-USD" "boom" rfl

/-! ### Diagnostics claim -/

lemma lookup_eq_of_mem_nodup {β : Type} :
    ∀ (l : List (String × β)) (nm : String) (w : β),
      (l.map Prod.fst).Nodup → (nm, w) ∈ l → l.lookup nm = some w
  | [], _, _, _, h => absurd h (List.not_mem_nil _)
  | (k, v) :: tl, nm, w, hnd, hmem => by
    rw [List.map_cons] at hnd
    have h1 := (List.nodup_cons.mp hnd).1
    have h2 := (List.nodup_cons.mp hnd).2
    rcases List.mem_cons.mp hmem with heq | hmem2
    · cases heq
      simp [List.lookup]
    · have hk : nm ≠ k := by
        intro h
        apply h1
        rw [← h]
        exact List.mem_map.mpr ⟨(nm, w), hmem2, rfl⟩
      have hb : (nm == k) = false := by simpa using hk
      simp only [List.lookup, hb]
      exact lookup_eq_of_mem_nodup tl nm w h2 hmem2

/-- C6: diagnostics are computed only on the AIC-elected winner: the
winner is a fitted model of the mapping whose (AIC, BIC) pair is
lexicographically minimal, the produced `DiagRow` is exactly one
Ljung-Box test at lag 12 on its standardized residuals and one at lag 12
on their squares, and the diagnostics output is unchanged under any
replacement of the mapping that preserves the projected rows and the
winner's fitted model. -/
theorem diagnostics_on_winner_only
    (lb : List ℚ → Nat → ℚ × ℚ) (results : List (String × FittedModel))
    (r0 : ComparisonRow)
    (h0 : (model_comparison_table results).head? = some r0)
    (hnd : (results.map Prod.fst).Nodup) :
    ∃ w : FittedModel,
      best_model results = some w
    ∧ (r0.model, w) ∈ results
    ∧ run_diagnostics lb results
        = some ⟨(lb w.std_resid 12).1, (lb w.std_resid 12).2,
            (lb (w.std_resid.map fun x => x ^ 2) 12).1,
            (lb (w.std_resid.map fun x => x ^ 2) 12).2⟩
    ∧ (∀ p ∈ results, w.aic ≤ p.2.aic ∧ (w.aic = p.2.aic → w.bic ≤ p.2.bic))
    ∧ (∀ results2 : List (String × FittedModel),
        results2.map toRow = results.map toRow →
        results2.lookup r0.model = results.lookup r0.model →
        run_diagnostics lb results2 = run_diagnostics lb results) := by
  have hr0mem : r0 ∈ model_comparison_table results :=
    head_mem_comparison_table results r0 h0
  rcases List.mem_map.mp ((comparison_table_perm results).mem_iff.mp hr0mem)
    with ⟨p, hpmem, hpe⟩
  obtain ⟨nm, w⟩ := p
  have hnm : nm = r0.model := by rw [← hpe]; rfl
  subst hnm
  have hlookup : results.lookup r0.model = some w :=
    lookup_eq_of_mem_nodup results r0.model w hnd hpmem
  have hbest : best_model results = some w := by
    unfold best_model
    rw [h0]
    exact hlookup
  have haic : w.aic = r0.aic := congrArg ComparisonRow.aic hpe
  have hbic : w.bic = r0.bic := congrArg ComparisonRow.bic hpe
  refine ⟨w, hbest, hpmem, ?_, ?_, ?_⟩
  · unfold run_diagnostics
    rw [hbest]
    rfl
  · intro p hp
    have hrow : toRow p ∈ model_comparison_table results :=
      (comparison_table_perm results).mem_iff.mpr
        (List.mem_map_of_mem toRow hp)
    have hmin := comparison_head_min results r0 h0 (toRow p) hrow
    rw [haic, hbic]
    exact hmin
  · intro results2 hproj hlook
    have e1 : model_comparison_table results2 = model_comparison_table results := by
      unfold model_comparison_table
      rw [hproj]
    unfold run_diagnostics best_model
    rw [e1, h0]
    show Option.map (residual_diagnostics lb) (results2.lookup r0.model)
        = Option.map (residual_diagnostics lb) (results.lookup r0.model)
    rw [hlook]

/-- C6 witness: with a constant Ljung-Box oracle and the `demoResults`
mapping, diagnostics are produced from the elected GJR row's model
alone. -/
theorem diagnostics_on_winner_only_witness :
    ∃ w : FittedModel,
      best_model demoResults = some w
    ∧ (("GJR-GARCH(1,1)" : String), w) ∈ demoResults
    ∧ run_diagnostics (fun _ _ => ((0 : ℚ), (0 : ℚ))) demoResults
        = some ⟨0, 0, 0, 0⟩
    ∧ (∀ p ∈ demoResults,
        w.aic ≤ p.2.aic ∧ (w.aic = p.2.aic → w.bic ≤ p.2.bic))
    ∧ (∀ results2 : List (String × FittedModel),
        results2.map toRow = demoResults.map toRow →
        results2.lookup "GJR-GARCH(1,1)" = demoResults.lookup "GJR-GARCH(1,1)" →
        run_diagnostics (fun _ _ => ((0 : ℚ), (0 : ℚ))) results2
          = run_diagnostics (fun _ _ => ((0 : ℚ), (0 : ℚ))) demoResults) :=
  diagnostics_on_winner_only (fun _ _ => ((0 : ℚ), (0 : ℚ))) demoResults
    ⟨"GJR-GARCH(1,1)", -8, 20, 19⟩ (by decide) (by decide)

end CryptoGarch
